import Mathlib

/-!
# Feldarian BaseLibrary: container headers, audio descriptor, span casts, localization

A shallow embedding of `include/Feldarian/PCMS16/PCMS16.hpp` and of
`include/Feldarian/UTF/Localization.hpp`.

Conventions of the embedding:

* C++ unsigned integers (`uint16_t`, `uint32_t`, `uint64_t`, `size_t`) are natural numbers;
  where the C++ arithmetic can wrap, the definition reduces modulo `2 ^ w` explicitly.
* `char[4]` tags are lists of characters.
* A struct with default member initialisers is a Lean structure with the same defaults, so
  that `{}` is the default-constructed value.
-/

namespace Feldarian.Base.PCMS16

/-! ## Container headers (`PCMS16.hpp`, lines 21-58) -/

/-- The struct `PCMS16_Header`, members in declaration order with their default initialisers. -/
structure PCMS16_Header where
  riffId : List Char := ['R', 'I', 'F', 'F']
  riffSize : Nat := 0x24
  waveId : List Char := ['W', 'A', 'V', 'E']
  fmtId : List Char := ['f', 'm', 't', ' ']
  fmtSize : Nat := 0x10
  fmtFormat : Nat := 0x01
  fmtChannels : Nat := 0
  fmtSampleRate : Nat := 0
  fmtAvgBytesRate : Nat := 0
  fmtBlockAlign : Nat := 0
  fmtBitsPerSample : Nat := 0
  dataId : List Char := ['d', 'a', 't', 'a']
  dataSize : Nat := 0
  deriving DecidableEq, Repr

/-- The struct `ADPCM_Header`, members in declaration order with their default initialisers. -/
structure ADPCM_Header where
  riffId : List Char := ['R', 'I', 'F', 'F']
  riffSize : Nat := 0x34
  waveId : List Char := ['W', 'A', 'V', 'E']
  fmtId : List Char := ['f', 'm', 't', ' ']
  fmtSize : Nat := 0x14
  fmtFormat : Nat := 0x11
  fmtChannels : Nat := 0
  fmtSampleRate : Nat := 0
  fmtAvgBytesRate : Nat := 0
  fmtBlockAlign : Nat := 0
  fmtBitsPerSample : Nat := 0
  fmtExtraSize : Nat := 0x02
  fmtExtraSamplesPerBlock : Nat := 0x3F9
  factId : List Char := ['f', 'a', 'c', 't']
  factSize : Nat := 0x04
  factSamplesCount : Nat := 0
  dataId : List Char := ['d', 'a', 't', 'a']
  dataSize : Nat := 0
  deriving DecidableEq, Repr

/-- The value of one struct member together with its declared C++ type:
`char[n]`, `uint16_t` or `uint32_t`. -/
inductive MemberValue where
  | chars (cs : List Char)
  | u16 (v : Nat)
  | u32 (v : Nat)
  deriving DecidableEq, Repr

/-- The `sizeof` of a member: one byte per `char`, two for `uint16_t`, four for `uint32_t`. -/
def MemberValue.sizeof : MemberValue → Nat
  | .chars cs => cs.length
  | .u16 _ => 2
  | .u32 _ => 4

/-- The tag carried by a `char[n]` member, nothing for an integer member. -/
def MemberValue.tag? : MemberValue → Option (List Char)
  | .chars cs => some cs
  | .u16 _ => none
  | .u32 _ => none

/-- One member of a header struct: its name and its typed value. -/
structure Member where
  name : String
  value : MemberValue
  deriving DecidableEq, Repr

/-- The members of a `PCMS16_Header` in declaration order, each with its declared type.
Every member sits at a multiple of its own size, so the struct has no padding. -/
def PCMS16_Header.members (h : PCMS16_Header) : List Member :=
  [ ⟨"riffId", .chars h.riffId⟩,
    ⟨"riffSize", .u32 h.riffSize⟩,
    ⟨"waveId", .chars h.waveId⟩,
    ⟨"fmtId", .chars h.fmtId⟩,
    ⟨"fmtSize", .u32 h.fmtSize⟩,
    ⟨"fmtFormat", .u16 h.fmtFormat⟩,
    ⟨"fmtChannels", .u16 h.fmtChannels⟩,
    ⟨"fmtSampleRate", .u32 h.fmtSampleRate⟩,
    ⟨"fmtAvgBytesRate", .u32 h.fmtAvgBytesRate⟩,
    ⟨"fmtBlockAlign", .u16 h.fmtBlockAlign⟩,
    ⟨"fmtBitsPerSample", .u16 h.fmtBitsPerSample⟩,
    ⟨"dataId", .chars h.dataId⟩,
    ⟨"dataSize", .u32 h.dataSize⟩ ]

/-- The members of an `ADPCM_Header` in declaration order, each with its declared type.
Every member sits at a multiple of its own size, so the struct has no padding. -/
def ADPCM_Header.members (h : ADPCM_Header) : List Member :=
  [ ⟨"riffId", .chars h.riffId⟩,
    ⟨"riffSize", .u32 h.riffSize⟩,
    ⟨"waveId", .chars h.waveId⟩,
    ⟨"fmtId", .chars h.fmtId⟩,
    ⟨"fmtSize", .u32 h.fmtSize⟩,
    ⟨"fmtFormat", .u16 h.fmtFormat⟩,
    ⟨"fmtChannels", .u16 h.fmtChannels⟩,
    ⟨"fmtSampleRate", .u32 h.fmtSampleRate⟩,
    ⟨"fmtAvgBytesRate", .u32 h.fmtAvgBytesRate⟩,
    ⟨"fmtBlockAlign", .u16 h.fmtBlockAlign⟩,
    ⟨"fmtBitsPerSample", .u16 h.fmtBitsPerSample⟩,
    ⟨"fmtExtraSize", .u16 h.fmtExtraSize⟩,
    ⟨"fmtExtraSamplesPerBlock", .u16 h.fmtExtraSamplesPerBlock⟩,
    ⟨"factId", .chars h.factId⟩,
    ⟨"factSize", .u32 h.factSize⟩,
    ⟨"factSamplesCount", .u32 h.factSamplesCount⟩,
    ⟨"dataId", .chars h.dataId⟩,
    ⟨"dataSize", .u32 h.dataSize⟩ ]

/-- Total byte width of a run of members. -/
def byteWidth (ms : List Member) : Nat :=
  (ms.map fun m => m.value.sizeof).sum

/-- The tags of a run of members, in order. -/
def tags (ms : List Member) : List (List Char) :=
  ms.filterMap fun m => m.value.tag?

/-- The members that follow the member called `a`. -/
def membersAfter (a : String) (ms : List Member) : List Member :=
  (ms.dropWhile fun m => m.name != a).drop 1

/-- The members strictly between the member called `a` and the member called `b`. -/
def membersBetween (a b : String) (ms : List Member) : List Member :=
  (membersAfter a ms).takeWhile fun m => m.name != b

/-- The value of `sizeof(PCMS16_Header)`: the byte length of the serialized header. -/
def PCMS16_Header.sizeof (h : PCMS16_Header) : Nat := byteWidth h.members

/-- The value of `sizeof(ADPCM_Header)`: the byte length of the serialized header. -/
def ADPCM_Header.sizeof (h : ADPCM_Header) : Nat := byteWidth h.members

/-! ## The descriptor (`PCMS16.hpp`, lines 60-82) -/

/-- The enumeration `AudioDataFormat : uint16_t`. -/
inductive AudioDataFormat where
  | INVALID
  | PCM_S16
  | IMA_ADPCM
  | OGG_VORBIS
  | UNKNOWN_SUPPORTED
  deriving DecidableEq, Repr

/-- The underlying `uint16_t` value of each enumerator. -/
def AudioDataFormat.code : AudioDataFormat → Nat
  | .INVALID => 0x00
  | .PCM_S16 => 0x01
  | .IMA_ADPCM => 0x11
  | .OGG_VORBIS => 0x1000
  | .UNKNOWN_SUPPORTED => 0x8000

/-- The struct `AudioDataInfo`, members in declaration order with their default initialisers. -/
structure AudioDataInfo where
  dataXXH3 : Nat := 0
  dataSizeUncompressed : Nat := 0
  dataSize : Nat := 0
  sampleRate : Nat := 0
  format : AudioDataFormat := AudioDataFormat.INVALID
  bitsPerSample : Nat := 0
  channels : Nat := 0
  blockAlign : Nat := 0
  samplesPerBlock : Nat := 0
  deriving DecidableEq, Repr

/-- The defaulted `operator<=>` of `AudioDataInfo`: the members are compared in declaration
order with their own `<=>` (the enumeration through its underlying value), and the first
result that is not `equal` is returned. -/
def AudioDataInfo.compare (a b : AudioDataInfo) : Ordering :=
  (Ord.compare a.dataXXH3 b.dataXXH3).then <|
  (Ord.compare a.dataSizeUncompressed b.dataSizeUncompressed).then <|
  (Ord.compare a.dataSize b.dataSize).then <|
  (Ord.compare a.sampleRate b.sampleRate).then <|
  (Ord.compare a.format.code b.format.code).then <|
  (Ord.compare a.bitsPerSample b.bitsPerSample).then <|
  (Ord.compare a.channels b.channels).then <|
  (Ord.compare a.blockAlign b.blockAlign).then <|
  (Ord.compare a.samplesPerBlock b.samplesPerBlock)

/-- The `operator==` that the defaulted `operator<=>` declares: member-wise equality in
declaration order. -/
def AudioDataInfo.eq (a b : AudioDataInfo) : Bool :=
  a.dataXXH3 == b.dataXXH3 && a.dataSizeUncompressed == b.dataSizeUncompressed
    && a.dataSize == b.dataSize && a.sampleRate == b.sampleRate
    && a.format.code == b.format.code && a.bitsPerSample == b.bitsPerSample
    && a.channels == b.channels && a.blockAlign == b.blockAlign
    && a.samplesPerBlock == b.samplesPerBlock

/-- The rewritten `a < b`, that is `(a <=> b) < 0`. -/
def AudioDataInfo.lt (a b : AudioDataInfo) : Bool := a.compare b == Ordering.lt

/-- The rewritten `a > b`, that is `(a <=> b) > 0`. -/
def AudioDataInfo.gt (a b : AudioDataInfo) : Bool := a.compare b == Ordering.gt

/-- The rewritten `a <= b`, that is `(a <=> b) <= 0`. -/
def AudioDataInfo.le (a b : AudioDataInfo) : Bool := a.compare b != Ordering.gt

/-- The nine members of a descriptor as a tuple of numbers in declaration order, the
enumeration by its underlying value: the tuple the specification orders descriptors by. -/
def AudioDataInfo.specTuple (a : AudioDataInfo) : List Nat :=
  [a.dataXXH3, a.dataSizeUncompressed, a.dataSize, a.sampleRate, a.format.code,
   a.bitsPerSample, a.channels, a.blockAlign, a.samplesPerBlock]

/-- The order of the specification: the lexicographic order on the tuples of members. -/
def AudioDataInfo.specLexLt (a b : AudioDataInfo) : Prop :=
  List.Lex (fun x y : Nat => x < y) a.specTuple b.specTuple

/-- Three-way lexicographic comparison of two tuples of numbers. -/
def lexCompare : List Nat → List Nat → Ordering
  | [], [] => Ordering.eq
  | [], _ :: _ => Ordering.lt
  | _ :: _, [] => Ordering.gt
  | x :: xs, y :: ys => (Ord.compare x y).then (lexCompare xs ys)

/-! ## Spans and `ToSpan` (`PCMS16.hpp`, lines 155-164) -/

/-- A `std::span`: the byte address of its first element and its number of elements.
The default value is the span `{}`: a null data pointer and no element. -/
structure Span where
  data : Nat := 0
  size : Nat := 0
  deriving DecidableEq, Repr

/-- The function template `ToSpan<OutputSpanType, InputSpanType>`; `sizeofOutput` and
`sizeofInput` are `sizeof(OutputSpanType)` and `sizeof(InputSpanType)`. `byteSize` is a
product of two `size_t` (64 bits wide) and wraps modulo `2 ^ 64`. -/
def ToSpan (sizeofOutput sizeofInput : Nat) (input : Span) : Span :=
  let byteSize := (input.size * sizeofInput) % 2 ^ 64
  if byteSize % sizeofOutput ≠ 0 then
    {}
  else
    { data := input.data, size := byteSize / sizeofOutput }

/-! ## Header codec and payload views (declared in `PCMS16.hpp`, lines 84-102) -/

/-- Modelled from the spec: the formulas of the derived fields that the specification names
without defining them. The bodies of the header codec are not under src/, and section 4.1
only says that `Header(descriptor)` computes "all derived fields (byte rates, block
alignment, per-block sample counts for ADPCM given an optional block-size power-of-two)".
Each formula left open is a parameter of the model; its result is reduced to the width of
the member that receives it. -/
structure DerivedFields where
  /-- The PCM average byte rate from sample rate and block alignment. -/
  pcmAvgBytesRate : Nat → Nat → Nat
  /-- The ADPCM average byte rate from sample rate, block alignment and samples per block. -/
  adpcmAvgBytesRate : Nat → Nat → Nat → Nat
  /-- The ADPCM block alignment from channel count, sample rate and `blocksizePow2`. -/
  adpcmBlockAlign : Nat → Nat → Int → Nat
  /-- The ADPCM samples per block from channel count, block alignment and `blocksizePow2`. -/
  adpcmSamplesPerBlock : Nat → Nat → Int → Nat
  /-- The `fact` sample count from the decoded byte size and the channel count. -/
  factSamplesCount : Nat → Nat → Nat
  /-- The decoded byte size from the `fact` sample count and the channel count. -/
  decodedSize : Nat → Nat → Nat

/-- Modelled from the spec: `PCMS16Header(const AudioDataInfo&)`, declared at line 84, body
not under src/. Section 4.1: it "builds a header struct from a descriptor, computing all
derived fields"; section 3: for `PCM_S16`, `blockAlign = channels * bitsPerSample/8`, and
`riffSize`/`dataSize` are re-derived from the payload length. Tags, `fmtSize` and `fmtFormat`
keep the defaults of the struct. -/
def PCMS16Header (d : DerivedFields) (record : AudioDataInfo) : PCMS16_Header :=
  let blockAlign := (record.channels * record.bitsPerSample / 8) % 2 ^ 16
  { riffSize := (0x24 + record.dataSize) % 2 ^ 32
    fmtChannels := record.channels
    fmtSampleRate := record.sampleRate
    fmtAvgBytesRate := d.pcmAvgBytesRate record.sampleRate blockAlign % 2 ^ 32
    fmtBlockAlign := blockAlign
    fmtBitsPerSample := record.bitsPerSample
    dataSize := record.dataSize }

/-- Modelled from the spec: `PCMS16SoundRecord(const PCMS16_Header&, uint64_t xxh3Hash)`,
declared at line 87, body not under src/. Section 4.1: the inverse of the header builder
"validates magic tags and structural sizes, and on success returns a descriptor with `format`
set accordingly; on any mismatch (wrong magic, wrong format tag, size chunk mismatch) returns
a descriptor with `format = INVALID`". For PCM the decoded and the encoded byte size are the
same and `samplesPerBlock` is unused. -/
def PCMS16SoundRecord (header : PCMS16_Header) (xxh3Hash : Nat) : AudioDataInfo :=
  if header.riffId = ['R', 'I', 'F', 'F'] ∧ header.waveId = ['W', 'A', 'V', 'E']
      ∧ header.fmtId = ['f', 'm', 't', ' '] ∧ header.dataId = ['d', 'a', 't', 'a']
      ∧ header.fmtFormat = 0x01 ∧ header.fmtSize = 0x10
      ∧ header.riffSize = (0x24 + header.dataSize) % 2 ^ 32 then
    { dataXXH3 := xxh3Hash
      dataSizeUncompressed := header.dataSize
      dataSize := header.dataSize
      sampleRate := header.fmtSampleRate
      format := AudioDataFormat.PCM_S16
      bitsPerSample := header.fmtBitsPerSample
      channels := header.fmtChannels
      blockAlign := header.fmtBlockAlign
      samplesPerBlock := 0 }
  else
    {}

/-- Modelled from the spec: `ADPCMHeader(const AudioDataInfo&, int blocksizePow2)`, declared
at line 94, body not under src/. Section 4.1 as for `PCMS16Header`; section 3: for
`IMA_ADPCM`, "`samplesPerBlock` and `blockAlign` are mutually derived from a block-size
power-of-two parameter", and the `fact` chunk carries the total decoded sample count. Tags,
`fmtSize`, `fmtFormat`, `fmtExtraSize` and `factSize` keep the defaults of the struct. -/
def ADPCMHeader (d : DerivedFields) (record : AudioDataInfo) (blocksizePow2 : Int) :
    ADPCM_Header :=
  let blockAlign := d.adpcmBlockAlign record.channels record.sampleRate blocksizePow2 % 2 ^ 16
  let samplesPerBlock := d.adpcmSamplesPerBlock record.channels blockAlign blocksizePow2 % 2 ^ 16
  { riffSize := (0x34 + record.dataSize) % 2 ^ 32
    fmtChannels := record.channels
    fmtSampleRate := record.sampleRate
    fmtAvgBytesRate := d.adpcmAvgBytesRate record.sampleRate blockAlign samplesPerBlock % 2 ^ 32
    fmtBlockAlign := blockAlign
    fmtBitsPerSample := record.bitsPerSample
    fmtExtraSamplesPerBlock := samplesPerBlock
    factSamplesCount := d.factSamplesCount record.dataSizeUncompressed record.channels % 2 ^ 32
    dataSize := record.dataSize }

/-- Modelled from the spec: `ADPCMSoundRecord(const ADPCM_Header&, uint64_t xxh3Hash)`,
declared at line 97, body not under src/. Section 4.1 as for `PCMS16SoundRecord`, with the
`fact` tag and the sizes of the extra format members and of the `fact` chunk validated as
well. -/
def ADPCMSoundRecord (d : DerivedFields) (header : ADPCM_Header) (xxh3Hash : Nat) :
    AudioDataInfo :=
  if header.riffId = ['R', 'I', 'F', 'F'] ∧ header.waveId = ['W', 'A', 'V', 'E']
      ∧ header.fmtId = ['f', 'm', 't', ' '] ∧ header.factId = ['f', 'a', 'c', 't']
      ∧ header.dataId = ['d', 'a', 't', 'a']
      ∧ header.fmtFormat = 0x11 ∧ header.fmtSize = 0x14 ∧ header.fmtExtraSize = 0x02
      ∧ header.factSize = 0x04
      ∧ header.riffSize = (0x34 + header.dataSize) % 2 ^ 32 then
    { dataXXH3 := xxh3Hash
      dataSizeUncompressed := d.decodedSize header.factSamplesCount header.fmtChannels % 2 ^ 32
      dataSize := header.dataSize
      sampleRate := header.fmtSampleRate
      format := AudioDataFormat.IMA_ADPCM
      bitsPerSample := header.fmtBitsPerSample
      channels := header.fmtChannels
      blockAlign := header.fmtBlockAlign
      samplesPerBlock := header.fmtExtraSamplesPerBlock }
  else
    {}

/-- Modelled from the spec: the view extraction shared by
`PCMS16DataView(const PCMS16_Header&, const std::span<const int16_t>&)` (line 91) and
`ADPCMDataView(const ADPCM_Header&, const std::span<const char>&)` (line 101), bodies not under
src/. Section 4.2: it "returns a zero-copy slice over the payload region of a buffer,
bounds-checked against the header's declared payload size; if the buffer is shorter than
declared, it returns an empty view rather than a truncated one". `sizeofElement` is the size
of one element of the buffer, `dataSize` the payload size in bytes that the header declares.
The specification does not say whether the buffer starts with the container header or with
the payload, so `payloadOffset`, the number of bytes of the buffer in front of its payload
region, is a parameter (0, or the size of the header). -/
def dataView (sizeofElement payloadOffset dataSize : Nat) (input : Span) : Span :=
  if input.size * sizeofElement < payloadOffset + dataSize then
    {}
  else
    { data := input.data + payloadOffset, size := dataSize / sizeofElement }

/-- Modelled from the spec: `PCMS16DataView(header, in)`, see `dataView`; the elements of
the buffer are `int16_t`. -/
def PCMS16DataView (payloadOffset : Nat) (header : PCMS16_Header) (input : Span) : Span :=
  dataView 2 payloadOffset header.dataSize input

/-- Modelled from the spec: `ADPCMDataView(header, in)`, see `dataView`; the elements of the
buffer are `char`. -/
def ADPCMDataView (payloadOffset : Nat) (header : ADPCM_Header) (input : Span) : Span :=
  dataView 1 payloadOffset header.dataSize input

/-- The number of bytes of the payload region of a buffer: what the buffer holds after the
first `payloadOffset` bytes. -/
def payloadBytes (sizeofElement payloadOffset : Nat) (input : Span) : Nat :=
  input.size * sizeofElement - payloadOffset

/-- A view covers no byte, or lies inside the buffer: it starts at or after the first byte of
the buffer and ends at or before its last byte. -/
def Span.within (view : Span) (sizeofElement : Nat) (buffer : Span) : Prop :=
  view.size = 0
    ∨ (buffer.data ≤ view.data
        ∧ view.data + view.size * sizeofElement ≤ buffer.data + buffer.size * sizeofElement)

end Feldarian.Base.PCMS16

namespace Feldarian.Base.UTF

/-! ## Localization tables (`Localization.hpp`, lines 16-88) -/

/-- A value of a `toml::table` (toml++ is an external library): a string, or a node of
another kind. -/
inductive TomlNode where
  | string (s : String)
  | integer (i : Int)
  | boolean (b : Bool)
  | other
  deriving DecidableEq, Repr

/-- The member `toml::node::is_string`. -/
def TomlNode.is_string : TomlNode → Bool
  | .string _ => true
  | _ => false

/-- The member `toml::node::as_string`, with the value of the string node that it points
to; nothing for a node that is not a string. -/
def TomlNode.as_string : TomlNode → Option String
  | .string s => some s
  | _ => none

/-- A `toml::table` as the sequence of its key/value pairs in iteration order. -/
abbrev TomlTable := List (String × TomlNode)

/-- Modelled from the spec: the ordering of `String8CI` keys, which is declared outside src/
(the specification treats the string library as an external collaborator). The `CI` wrappers
are the instantiations with `CaseSensitive = false` (template default at
`Localization.hpp` line 63), so two keys are the same key of an
`OrderedMap<String8CI, String8>` when their case-folded forms coincide. The folding is a
parameter `fold` of the map operations; this is its instance on ASCII letters. -/
def asciiFold (s : String) : String :=
  String.mk (s.data.map Char.toLower)

/-- The member `find` of `OrderedMap<String8CI, String8>` on the entries of the map: the
entry whose key is the same key as `key`, if there is one. -/
def mapFind (fold : String → String) (key : String) :
    List (String × String) → Option (String × String)
  | [] => none
  | (k, v) :: rest => if fold k = fold key then some (k, v) else mapFind fold key rest

/-- The member `insert_or_assign` of `OrderedMap<String8CI, String8>` on the entries of the
map: the value of the entry with the same key is overwritten (the stored key stays), and a new
entry is added when there is none. -/
def mapInsertOrAssign (fold : String → String) (key value : String) :
    List (String × String) → List (String × String)
  | [] => [(key, value)]
  | (k, v) :: rest =>
    if fold k = fold key then (k, value) :: rest
    else (k, v) :: mapInsertOrAssign fold key value rest

/-- The class `LocalizationInstance`: the entries of its `localizationMap`, and the texts
passed so far to `AddText` of the glyph ranges builder it refers to. -/
structure LocalizationInstance where
  localizationMap : List (String × String) := []
  glyphTexts : List String := []
  deriving DecidableEq, Repr

/-- The static member `LocalizationInstance::Empty`. -/
def LocalizationInstance.Empty : String := ""

/-- The second loop of `LocalizationInstance::Load` (lines 38-49): every entry is asserted to
be a string, key and value are passed to `AddText` and the pair is stored with
`insert_or_assign`. The result is `none` when an assertion fails. -/
def LocalizationInstance.loadEntries (fold : String → String) :
    TomlTable → LocalizationInstance → Option LocalizationInstance
  | [], self => some self
  | (key, value) :: rest, self =>
    match value with
    | .string valueUTF =>
      LocalizationInstance.loadEntries fold rest
        { localizationMap := mapInsertOrAssign fold key valueUTF self.localizationMap
          glyphTexts := self.glyphTexts ++ [key, valueUTF] }
    | _ => none

/-- The member `LocalizationInstance::Load` (lines 30-52): the returned flag and the instance
after the call, or `none` when an assertion fails. -/
def LocalizationInstance.Load (fold : String → String) (self : LocalizationInstance)
    (localizationTable : TomlTable) : Option (Bool × LocalizationInstance) :=
  if localizationTable.any (fun kv => !kv.2.is_string) then
    some (false, self)
  else
    (LocalizationInstance.loadEntries fold localizationTable self).map fun s => (true, s)

/-- The member `LocalizationInstance::Localize` (lines 54-61). -/
def LocalizationInstance.Localize (fold : String → String) (self : LocalizationInstance)
    (key : String) : String :=
  match mapFind fold key self.localizationMap with
  | none => LocalizationInstance.Empty
  | some (_, value) => value

/-- The value that a table gives for a key: the string of the entry with exactly this key. -/
def tableValue (key : String) (localizationTable : TomlTable) : Option TomlNode :=
  (localizationTable.find? fun kv => kv.1 == key).map Prod.snd

/-- The last entry of a table, in iteration order, whose key is the same `String8CI` key as
`key`. -/
def lastSameKey (fold : String → String) (key : String) (localizationTable : TomlTable) :
    Option TomlNode :=
  (localizationTable.reverse.find? fun kv => fold kv.1 == fold key).map Prod.snd


/-! ## The localization manager (`Localization.hpp`, lines 90-272) -/

/-- The macro `assert` of `<cassert>`: with `NDEBUG` defined it expands to nothing, otherwise
the program is aborted (`none`) when the condition is false. -/
def cassert (ndebug : Bool) (condition : Bool) : Option Unit :=
  if ndebug || condition then some () else none

/-- The members of the class `LocalizationManager` that a lookup reads. A pointer to a
`LocalizationInstance` is the instance it points to at the time of the call, `none` is
`nullptr`; both pointers are `nullptr` after construction. -/
structure LocalizationManager where
  localizationInstancesMap : List (String × LocalizationInstance) := []
  defaultLocalizationLanguage : String := ""
  defaultLocalizationInstance : Option LocalizationInstance := none
  localizationLanguage : String := ""
  localizationInstance : Option LocalizationInstance := none
  deriving DecidableEq, Repr

/-- The member `LocalizationManager::LocalizeInternal` (lines 245-261); `empty()` of a string
is equality with the empty string. The result is `none` when the assertion of line 259
aborts the program. -/
def LocalizationManager.LocalizeInternal (ndebug : Bool) (fold : String → String)
    (self : LocalizationManager) (key : String) : Option String :=
  let localized :=
    match self.localizationInstance with
    | some pointee => pointee.Localize fold key
    | none => LocalizationInstance.Empty
  if localized ≠ "" then
    some localized
  else
    let defaultLocalized :=
      match self.defaultLocalizationInstance with
      | some pointee => pointee.Localize fold key
      | none => LocalizationInstance.Empty
    if defaultLocalized ≠ "" then
      some defaultLocalized
    else
      (cassert ndebug (decide (defaultLocalized ≠ ""))).bind fun _ =>
        some LocalizationInstance.Empty

/-- The member `LocalizationManager::Localize` (lines 200-216, both overloads): the result of
`LocalizeInternal`, or the key when that result is empty. The result is `none` when an
assertion aborts the program. -/
def LocalizationManager.Localize (ndebug : Bool) (fold : String → String)
    (self : LocalizationManager) (key : String) : Option String :=
  (self.LocalizeInternal ndebug fold key).map fun localized =>
    if localized = "" then key else localized

/-- The translation of a key in the current language: what the instance behind
`localizationInstance` gives for it, the empty string when no language is selected. -/
def LocalizationManager.currentTranslation (fold : String → String)
    (self : LocalizationManager) (key : String) : String :=
  match self.localizationInstance with
  | some pointee => pointee.Localize fold key
  | none => ""

/-- The translation of a key in the default language: what the instance behind
`defaultLocalizationInstance` gives for it, the empty string when there is no default
language. -/
def LocalizationManager.defaultTranslation (fold : String → String)
    (self : LocalizationManager) (key : String) : String :=
  match self.defaultLocalizationInstance with
  | some pointee => pointee.Localize fold key
  | none => ""

end Feldarian.Base.UTF

namespace Feldarian.Base.PCMS16

/-! ## Theorems -/

/-- C1: with the header codec modelled from the specification, for every `PCM_S16`
descriptor `PCMS16SoundRecord(PCMS16Header(info))` has the `sampleRate`, `channels`, `format`
and `bitsPerSample` of `info`, and for every `IMA_ADPCM` descriptor
`ADPCMSoundRecord(ADPCMHeader(info))` has them as well. -/
theorem header_round_trip (d : DerivedFields) (info : AudioDataInfo) (xxh3Hash : Nat)
    (blocksizePow2 : Int) :
    (info.format = AudioDataFormat.PCM_S16 →
        (PCMS16SoundRecord (PCMS16Header d info) xxh3Hash).sampleRate = info.sampleRate
          ∧ (PCMS16SoundRecord (PCMS16Header d info) xxh3Hash).channels = info.channels
          ∧ (PCMS16SoundRecord (PCMS16Header d info) xxh3Hash).format = info.format
          ∧ (PCMS16SoundRecord (PCMS16Header d info) xxh3Hash).bitsPerSample
              = info.bitsPerSample)
      ∧ (info.format = AudioDataFormat.IMA_ADPCM →
        (ADPCMSoundRecord d (ADPCMHeader d info blocksizePow2) xxh3Hash).sampleRate
            = info.sampleRate
          ∧ (ADPCMSoundRecord d (ADPCMHeader d info blocksizePow2) xxh3Hash).channels
              = info.channels
          ∧ (ADPCMSoundRecord d (ADPCMHeader d info blocksizePow2) xxh3Hash).format
              = info.format
          ∧ (ADPCMSoundRecord d (ADPCMHeader d info blocksizePow2) xxh3Hash).bitsPerSample
              = info.bitsPerSample) := by
  constructor
  · intro h
    simp [PCMS16SoundRecord, PCMS16Header, h]
  · intro h
    simp [ADPCMSoundRecord, ADPCMHeader, h]

/-- A CD-quality `PCM_S16` descriptor and a mono `IMA_ADPCM` descriptor survive the round
trip, with the RIFF/WAVE formulas for the derived fields. -/
theorem header_round_trip_witness :
    (PCMS16SoundRecord
        (PCMS16Header
          { pcmAvgBytesRate := fun r b => r * b, adpcmAvgBytesRate := fun r b s => r * b / s,
            adpcmBlockAlign := fun c _ _ => 512 * c, adpcmSamplesPerBlock := fun _ _ _ => 0x3F9,
            factSamplesCount := fun n c => n / (2 * c), decodedSize := fun n c => n * 2 * c }
          { format := AudioDataFormat.PCM_S16, sampleRate := 44100, channels := 2,
            bitsPerSample := 16, blockAlign := 4, dataSize := 8, dataSizeUncompressed := 8 })
        0).sampleRate = 44100
      ∧ (ADPCMSoundRecord
          { pcmAvgBytesRate := fun r b => r * b, adpcmAvgBytesRate := fun r b s => r * b / s,
            adpcmBlockAlign := fun c _ _ => 512 * c, adpcmSamplesPerBlock := fun _ _ _ => 0x3F9,
            factSamplesCount := fun n c => n / (2 * c), decodedSize := fun n c => n * 2 * c }
          (ADPCMHeader
            { pcmAvgBytesRate := fun r b => r * b, adpcmAvgBytesRate := fun r b s => r * b / s,
              adpcmBlockAlign := fun c _ _ => 512 * c,
              adpcmSamplesPerBlock := fun _ _ _ => 0x3F9,
              factSamplesCount := fun n c => n / (2 * c), decodedSize := fun n c => n * 2 * c }
            { format := AudioDataFormat.IMA_ADPCM, sampleRate := 22050, channels := 1,
              bitsPerSample := 4, blockAlign := 512, samplesPerBlock := 0x3F9, dataSize := 512,
              dataSizeUncompressed := 2034 }
            0)
          0).bitsPerSample = 4 :=
  ⟨((header_round_trip _
      { format := AudioDataFormat.PCM_S16, sampleRate := 44100, channels := 2,
        bitsPerSample := 16, blockAlign := 4, dataSize := 8, dataSizeUncompressed := 8 }
      0 0).1 rfl).1,
   ((header_round_trip _
      { format := AudioDataFormat.IMA_ADPCM, sampleRate := 22050, channels := 1,
        bitsPerSample := 4, blockAlign := 512, samplesPerBlock := 0x3F9, dataSize := 512,
        dataSizeUncompressed := 2034 }
      0 0).2 rfl).2.2.2⟩

/-- C2: a default-constructed `PCMS16_Header` carries the tags `RIFF`, `WAVE`, `fmt `, `data`
in that order, format tag `0x0001`, and a declared `fmt ` chunk size of 16 bytes, which is the
total byte width of the six members between `fmtSize` and `dataId`. -/
theorem pcms16_header_default_layout :
    tags ({} : PCMS16_Header).members
        = [['R', 'I', 'F', 'F'], ['W', 'A', 'V', 'E'], ['f', 'm', 't', ' '], ['d', 'a', 't', 'a']]
      ∧ ({} : PCMS16_Header).fmtFormat = 0x0001
      ∧ ({} : PCMS16_Header).fmtSize = 16
      ∧ (membersBetween "fmtSize" "dataId" ({} : PCMS16_Header).members).map Member.name
          = ["fmtFormat", "fmtChannels", "fmtSampleRate", "fmtAvgBytesRate", "fmtBlockAlign",
             "fmtBitsPerSample"]
      ∧ ({} : PCMS16_Header).fmtSize
          = byteWidth (membersBetween "fmtSize" "dataId" ({} : PCMS16_Header).members) := by
  refine ⟨?_, ?_, ?_, ?_, ?_⟩ <;> decide

/-- C3: a default-constructed `ADPCM_Header` carries the tags `RIFF`, `WAVE`, `fmt `, `fact`,
`data` in that order, format tag `0x0011`, a declared `fmt ` chunk size of 20 bytes, which is
the total byte width of the eight members between `fmtSize` and `factId` (the 16 bytes of the
PCM `fmt ` members plus the two 2-byte extra members), `fmtExtraSize` equal to 2, the width of
`fmtExtraSamplesPerBlock`, and `fmtExtraSamplesPerBlock` equal to `0x3F9`. -/
theorem adpcm_header_default_layout :
    tags ({} : ADPCM_Header).members
        = [['R', 'I', 'F', 'F'], ['W', 'A', 'V', 'E'], ['f', 'm', 't', ' '], ['f', 'a', 'c', 't'],
           ['d', 'a', 't', 'a']]
      ∧ ({} : ADPCM_Header).fmtFormat = 0x0011
      ∧ ({} : ADPCM_Header).fmtSize = 20
      ∧ (membersBetween "fmtSize" "factId" ({} : ADPCM_Header).members).map Member.name
          = ["fmtFormat", "fmtChannels", "fmtSampleRate", "fmtAvgBytesRate", "fmtBlockAlign",
             "fmtBitsPerSample", "fmtExtraSize", "fmtExtraSamplesPerBlock"]
      ∧ ({} : ADPCM_Header).fmtSize
          = byteWidth (membersBetween "fmtSize" "factId" ({} : ADPCM_Header).members)
      ∧ byteWidth (membersBetween "fmtSize" "factId" ({} : ADPCM_Header).members)
          = byteWidth (membersBetween "fmtSize" "dataId" ({} : PCMS16_Header).members) + 2 + 2
      ∧ ({} : ADPCM_Header).fmtExtraSize = 2
      ∧ (membersBetween "fmtExtraSize" "factId" ({} : ADPCM_Header).members).map Member.name
          = ["fmtExtraSamplesPerBlock"]
      ∧ ({} : ADPCM_Header).fmtExtraSize
          = byteWidth (membersBetween "fmtExtraSize" "factId" ({} : ADPCM_Header).members)
      ∧ ({} : ADPCM_Header).fmtExtraSamplesPerBlock = 0x3F9 := by
  refine ⟨?_, ?_, ?_, ?_, ?_, ?_, ?_, ?_, ?_, ?_⟩ <;> decide

/-- C4: in a default-constructed `PCMS16_Header` and a default-constructed `ADPCM_Header`
(empty payload, `dataSize = 0`) `riffSize` is the number of bytes that follow the `riffSize`
member, that is the serialized header length minus 8 plus `dataSize` (`0x24 = 44 - 8` and
`0x34 = 60 - 8`), and the ADPCM `factSize` is the byte width of `factSamplesCount`, 4. -/
theorem default_chunk_sizes_consistent :
    (({} : PCMS16_Header).dataSize = 0
      ∧ ({} : PCMS16_Header).sizeof = 44
      ∧ ({} : PCMS16_Header).riffSize = 0x24
      ∧ ({} : PCMS16_Header).riffSize
          = (({} : PCMS16_Header).sizeof - 8) + ({} : PCMS16_Header).dataSize
      ∧ ({} : PCMS16_Header).riffSize
          = byteWidth (membersAfter "riffSize" ({} : PCMS16_Header).members)
              + ({} : PCMS16_Header).dataSize)
      ∧ (({} : ADPCM_Header).dataSize = 0
      ∧ ({} : ADPCM_Header).sizeof = 60
      ∧ ({} : ADPCM_Header).riffSize = 0x34
      ∧ ({} : ADPCM_Header).riffSize
          = (({} : ADPCM_Header).sizeof - 8) + ({} : ADPCM_Header).dataSize
      ∧ ({} : ADPCM_Header).riffSize
          = byteWidth (membersAfter "riffSize" ({} : ADPCM_Header).members)
              + ({} : ADPCM_Header).dataSize)
      ∧ (({} : ADPCM_Header).factSize = 4
      ∧ (membersBetween "factSize" "dataId" ({} : ADPCM_Header).members).map Member.name
          = ["factSamplesCount"]
      ∧ ({} : ADPCM_Header).factSize
          = byteWidth (membersBetween "factSize" "dataId" ({} : ADPCM_Header).members)) := by
  refine ⟨⟨?_, ?_, ?_, ?_, ?_⟩, ⟨?_, ?_, ?_, ?_, ?_⟩, ?_, ?_, ?_⟩ <;> decide

theorem then_eq_lt_iff (o p : Ordering) :
    o.then p = Ordering.lt ↔ o = Ordering.lt ∨ (o = Ordering.eq ∧ p = Ordering.lt) := by
  cases o <;> cases p <;> simp [Ordering.then]

theorem then_eq_gt_iff (o p : Ordering) :
    o.then p = Ordering.gt ↔ o = Ordering.gt ∨ (o = Ordering.eq ∧ p = Ordering.gt) := by
  cases o <;> cases p <;> simp [Ordering.then]

theorem then_eq_eq_iff (o p : Ordering) :
    o.then p = Ordering.eq ↔ o = Ordering.eq ∧ p = Ordering.eq := by
  cases o <;> cases p <;> simp [Ordering.then]

theorem lex_cons_iff (x y : Nat) (xs ys : List Nat) :
    List.Lex (fun a b : Nat => a < b) (x :: xs) (y :: ys)
      ↔ x < y ∨ (x = y ∧ List.Lex (fun a b : Nat => a < b) xs ys) := by
  constructor
  · intro h
    cases h with
    | cons h => exact Or.inr ⟨rfl, h⟩
    | rel h => exact Or.inl h
  · rintro (h | ⟨rfl, h⟩)
    · exact List.Lex.rel h
    · exact List.Lex.cons h

theorem lexCompare_eq_lt_iff : ∀ xs ys : List Nat,
    lexCompare xs ys = Ordering.lt ↔ List.Lex (fun a b : Nat => a < b) xs ys
  | [], [] => by simp [lexCompare]
  | [], _ :: _ => by simp [lexCompare, List.Lex.nil]
  | _ :: _, [] => by simp [lexCompare]
  | x :: xs, y :: ys => by
    rw [lexCompare, then_eq_lt_iff, lex_cons_iff, lexCompare_eq_lt_iff xs ys,
      compare_lt_iff_lt, compare_eq_iff_eq]

theorem lexCompare_eq_gt_iff : ∀ xs ys : List Nat,
    lexCompare xs ys = Ordering.gt ↔ List.Lex (fun a b : Nat => a < b) ys xs
  | [], [] => by simp [lexCompare]
  | [], _ :: _ => by simp [lexCompare]
  | _ :: _, [] => by simp [lexCompare, List.Lex.nil]
  | x :: xs, y :: ys => by
    rw [lexCompare, then_eq_gt_iff, lex_cons_iff, lexCompare_eq_gt_iff xs ys,
      compare_gt_iff_gt, compare_eq_iff_eq]
    constructor
    · rintro (h | ⟨h, h'⟩)
      · exact Or.inl h
      · exact Or.inr ⟨h.symm, h'⟩
    · rintro (h | ⟨h, h'⟩)
      · exact Or.inl h
      · exact Or.inr ⟨h.symm, h'⟩

theorem lexCompare_eq_eq_iff : ∀ xs ys : List Nat,
    lexCompare xs ys = Ordering.eq ↔ xs = ys
  | [], [] => by simp [lexCompare]
  | [], _ :: _ => by simp [lexCompare]
  | _ :: _, [] => by simp [lexCompare]
  | x :: xs, y :: ys => by
    rw [lexCompare, then_eq_eq_iff, lexCompare_eq_eq_iff xs ys, compare_eq_iff_eq]
    simp

theorem lex_trans : ∀ xs ys zs : List Nat,
    List.Lex (fun a b : Nat => a < b) xs ys → List.Lex (fun a b : Nat => a < b) ys zs →
      List.Lex (fun a b : Nat => a < b) xs zs
  | [], _, [] => by intro _ h; cases h
  | [], _, _ :: _ => by intro _ _; exact List.Lex.nil
  | _ :: _, [], _ => by intro h; cases h
  | _ :: _, _ :: _, [] => by intro _ h; cases h
  | x :: xs, y :: ys, z :: zs => by
    rw [lex_cons_iff, lex_cons_iff, lex_cons_iff]
    rintro (h | ⟨rfl, h⟩) (h' | ⟨rfl, h'⟩)
    · exact Or.inl (lt_trans h h')
    · exact Or.inl h
    · exact Or.inl h'
    · exact Or.inr ⟨rfl, lex_trans xs ys zs h h'⟩

theorem then_eq_right (o : Ordering) : o.then Ordering.eq = o := by
  cases o <;> rfl

theorem compare_eq_lexCompare (a b : AudioDataInfo) :
    a.compare b = lexCompare a.specTuple b.specTuple := by
  simp only [AudioDataInfo.compare, AudioDataInfo.specTuple, lexCompare, then_eq_right]

theorem eq_iff_specTuple (a b : AudioDataInfo) :
    a.eq b = true ↔ a.specTuple = b.specTuple := by
  simp only [AudioDataInfo.eq, AudioDataInfo.specTuple, Bool.and_eq_true, beq_iff_eq,
    List.cons.injEq, and_true, and_assoc]

theorem code_injective (f g : AudioDataFormat) (h : f.code = g.code) : f = g := by
  cases f <;> cases g <;> first | rfl | (exact absurd h (by decide))

theorem specTuple_injective (a b : AudioDataInfo) (h : a.specTuple = b.specTuple) : a = b := by
  cases a; cases b
  simp only [AudioDataInfo.specTuple, List.cons.injEq, and_true] at h
  obtain ⟨h1, h2, h3, h4, h5, h6, h7, h8, h9⟩ := h
  have := code_injective _ _ h5
  subst h1 h2 h3 h4 h6 h7 h8 h9 this
  rfl

theorem lt_iff_compare (a b : AudioDataInfo) : a.lt b = true ↔ a.compare b = Ordering.lt := by
  unfold AudioDataInfo.lt
  cases a.compare b <;> decide

theorem gt_iff_compare (a b : AudioDataInfo) : a.gt b = true ↔ a.compare b = Ordering.gt := by
  unfold AudioDataInfo.gt
  cases a.compare b <;> decide

/-- C5: the defaulted comparison of `AudioDataInfo` is the lexicographic order over the nine
members in declaration order; for every two descriptors exactly one of `a < b`, `a == b`,
`a > b` holds; `<` is transitive; and `a == b` holds exactly when all nine members are
equal. -/
theorem audioDataInfo_compare_total_order (a b c : AudioDataInfo) :
    ((a.compare b = Ordering.lt ↔ a.specLexLt b)
        ∧ (a.compare b = Ordering.gt ↔ b.specLexLt a)
        ∧ (a.compare b = Ordering.eq ↔ a.specTuple = b.specTuple))
      ∧ ((a.lt b = true ∧ a.eq b = false ∧ a.gt b = false)
          ∨ (a.lt b = false ∧ a.eq b = true ∧ a.gt b = false)
          ∨ (a.lt b = false ∧ a.eq b = false ∧ a.gt b = true))
      ∧ (a.lt b = true → b.lt c = true → a.lt c = true)
      ∧ (a.gt b = b.lt a)
      ∧ (a.eq b = true ↔
          a.dataXXH3 = b.dataXXH3 ∧ a.dataSizeUncompressed = b.dataSizeUncompressed
            ∧ a.dataSize = b.dataSize ∧ a.sampleRate = b.sampleRate ∧ a.format = b.format
            ∧ a.bitsPerSample = b.bitsPerSample ∧ a.channels = b.channels
            ∧ a.blockAlign = b.blockAlign ∧ a.samplesPerBlock = b.samplesPerBlock) := by
  have hlt : ∀ x y : AudioDataInfo, x.compare y = Ordering.lt ↔ x.specLexLt y := fun x y => by
    rw [compare_eq_lexCompare, lexCompare_eq_lt_iff]; rfl
  have hgt : ∀ x y : AudioDataInfo, x.compare y = Ordering.gt ↔ y.specLexLt x := fun x y => by
    rw [compare_eq_lexCompare, lexCompare_eq_gt_iff]; rfl
  have heq : ∀ x y : AudioDataInfo, x.compare y = Ordering.eq ↔ x.specTuple = y.specTuple :=
    fun x y => by rw [compare_eq_lexCompare, lexCompare_eq_eq_iff]
  refine ⟨⟨hlt a b, hgt a b, heq a b⟩, ?_, ?_, ?_, ?_⟩
  · have he : a.eq b = true ↔ a.compare b = Ordering.eq := by
      rw [eq_iff_specTuple, heq]
    have hl := lt_iff_compare a b
    have hg := gt_iff_compare a b
    cases hc : a.compare b <;> rw [hc] at he hl hg
    · left
      exact ⟨hl.2 rfl, by simpa using he, by simpa using hg⟩
    · right; left
      exact ⟨by simpa using hl, he.2 rfl, by simpa using hg⟩
    · right; right
      exact ⟨by simpa using hl, by simpa using he, hg.2 rfl⟩
  · intro h1 h2
    rw [lt_iff_compare, hlt] at h1 h2 ⊢
    exact lex_trans _ _ _ h1 h2
  · rw [Bool.eq_iff_iff, gt_iff_compare, lt_iff_compare, hgt, hlt]
  · rw [eq_iff_specTuple]
    constructor
    · intro h
      have := specTuple_injective a b h
      subst this
      exact ⟨rfl, rfl, rfl, rfl, rfl, rfl, rfl, rfl, rfl⟩
    · rintro ⟨h1, h2, h3, h4, h5, h6, h7, h8, h9⟩
      simp only [AudioDataInfo.specTuple, h1, h2, h3, h4, h5, h6, h7, h8, h9]

/-- Three descriptors in increasing order, used to instantiate the order properties. -/
theorem audioDataInfo_compare_total_order_witness :
    ({ dataXXH3 := 1 } : AudioDataInfo).lt { dataXXH3 := 1, channels := 2 } = true
      ∧ ({ dataXXH3 := 1, channels := 2 } : AudioDataInfo).lt { dataXXH3 := 2 } = true
      ∧ ({ dataXXH3 := 1 } : AudioDataInfo).lt { dataXXH3 := 2 } = true :=
  ⟨by decide, by decide,
    (audioDataInfo_compare_total_order { dataXXH3 := 1 } { dataXXH3 := 1, channels := 2 }
      { dataXXH3 := 2 }).2.2.1 (by decide) (by decide)⟩

/-- C8: a default-constructed `AudioDataInfo` has `format == INVALID` and `dataXXH3 == 0`,
every other member is 0, and it compares less than or equal to every `AudioDataInfo`. -/
theorem audioDataInfo_default_is_least :
    ({} : AudioDataInfo).format = AudioDataFormat.INVALID
      ∧ ({} : AudioDataInfo).dataXXH3 = 0
      ∧ (({} : AudioDataInfo).dataSizeUncompressed = 0 ∧ ({} : AudioDataInfo).dataSize = 0
          ∧ ({} : AudioDataInfo).sampleRate = 0 ∧ ({} : AudioDataInfo).bitsPerSample = 0
          ∧ ({} : AudioDataInfo).channels = 0 ∧ ({} : AudioDataInfo).blockAlign = 0
          ∧ ({} : AudioDataInfo).samplesPerBlock = 0)
      ∧ ∀ b : AudioDataInfo, ({} : AudioDataInfo).le b = true := by
  refine ⟨rfl, rfl, ⟨rfl, rfl, rfl, rfl, rfl, rfl, rfl⟩, ?_⟩
  intro b
  have h : ({} : AudioDataInfo).compare b ≠ Ordering.gt := by
    rw [compare_eq_lexCompare, Ne, lexCompare_eq_gt_iff]
    simp [AudioDataInfo.specTuple, lex_cons_iff, AudioDataFormat.code]
  unfold AudioDataInfo.le
  cases hc : ({} : AudioDataInfo).compare b
  · decide
  · decide
  · exact absurd hc h

/-- C9: for an input span of `n` elements of size `a` whose bytes fit the address space and
an output element size `b`, `ToSpan` returns the empty span when `n * a` is not a multiple of
`b`; otherwise the result starts at the first byte of the input and has exactly `n * a / b`
elements, so it covers exactly the `n * a` bytes of the input and ends where the input ends. -/
theorem toSpan_preserves_extent (a b : Nat) (input : Span)
    (hfit : input.size * a < 2 ^ 64) :
    (¬ b ∣ input.size * a → ToSpan b a input = {})
      ∧ (b ∣ input.size * a →
          (ToSpan b a input).data = input.data
            ∧ (ToSpan b a input).size = input.size * a / b
            ∧ (ToSpan b a input).size * b = input.size * a
            ∧ (ToSpan b a input).data + (ToSpan b a input).size * b
                = input.data + input.size * a) := by
  have hmod : (input.size * a) % 2 ^ 64 = input.size * a := Nat.mod_eq_of_lt hfit
  have hdef : ToSpan b a input
      = if input.size * a % b ≠ 0 then {}
        else { data := input.data, size := input.size * a / b } := by
    unfold ToSpan
    simp only [hmod]
  constructor
  · intro hnd
    have hne : (input.size * a) % b ≠ 0 := fun h => hnd (Nat.dvd_of_mod_eq_zero h)
    rw [hdef, if_pos hne]
  · intro hd
    have h0 : ¬ (input.size * a) % b ≠ 0 := fun h => h (Nat.mod_eq_zero_of_dvd hd)
    have hmul : input.size * a / b * b = input.size * a := Nat.div_mul_cancel hd
    rw [hdef, if_neg h0]
    exact ⟨rfl, rfl, hmul, by rw [hmul]⟩

/-- A span of three `int16_t` viewed as six `char`, and as no `uint32_t`. -/
theorem toSpan_preserves_extent_witness :
    ToSpan 1 2 { data := 4096, size := 3 } = { data := 4096, size := 6 }
      ∧ ToSpan 4 2 { data := 4096, size := 3 } = {} :=
  ⟨by
    have h := (toSpan_preserves_extent 2 1 { data := 4096, size := 3 }
      (by decide)).2 (by decide)
    decide,
   (toSpan_preserves_extent 2 4 { data := 4096, size := 3 } (by decide)).1
     (by decide)⟩

/-- C6: with the view extraction modelled from the specification, for every header and every
buffer whose payload region is shorter than the `dataSize` the header declares,
`PCMS16DataView` and `ADPCMDataView` return the empty view, and for every input the returned
view covers no byte or lies inside the buffer. -/
theorem dataView_bound_safety (payloadOffset : Nat) (pcm : PCMS16_Header) (adpcm : ADPCM_Header)
    (input : Span) :
    (payloadBytes 2 payloadOffset input < pcm.dataSize →
        PCMS16DataView payloadOffset pcm input = {})
      ∧ (payloadBytes 1 payloadOffset input < adpcm.dataSize →
        ADPCMDataView payloadOffset adpcm input = {})
      ∧ (PCMS16DataView payloadOffset pcm input).within 2 input
      ∧ (ADPCMDataView payloadOffset adpcm input).within 1 input := by
  have hin : ∀ (e dataSize : Nat), (dataView e payloadOffset dataSize input).within e input := by
    intro e dataSize
    unfold dataView Span.within
    by_cases hlt : input.size * e < payloadOffset + dataSize
    · rw [if_pos hlt]
      exact Or.inl rfl
    · rw [if_neg hlt]
      right
      have := Nat.div_mul_le_self dataSize e
      constructor <;> simp only <;> omega
  have hshort : ∀ (e dataSize : Nat), payloadBytes e payloadOffset input < dataSize →
      dataView e payloadOffset dataSize input = {} := by
    intro e dataSize h
    have hlt : input.size * e < payloadOffset + dataSize := by
      unfold payloadBytes at h
      omega
    unfold dataView
    rw [if_pos hlt]
  exact ⟨hshort 2 pcm.dataSize, hshort 1 adpcm.dataSize, hin 2 pcm.dataSize,
    hin 1 adpcm.dataSize⟩

/-- A buffer of ten `int16_t` behind a 44-byte header cannot hold the 100 bytes the header
declares, and a buffer of ten `char` cannot either: both views are empty. -/
theorem dataView_bound_safety_witness :
    PCMS16DataView 44 { dataSize := 100 } { data := 4096, size := 10 } = {}
      ∧ ADPCMDataView 60 { dataSize := 100 } { data := 4096, size := 10 } = {} :=
  ⟨(dataView_bound_safety 44 { dataSize := 100 } {} { data := 4096, size := 10 }).1
      (by decide),
   (dataView_bound_safety 60 {} { dataSize := 100 } { data := 4096, size := 10 }).2.1
      (by decide)⟩

/-- C7: the code of `AudioDataFormat::PCM_S16` is the default `fmtFormat` of `PCMS16_Header`
(`0x01`), the code of `AudioDataFormat::IMA_ADPCM` is the default `fmtFormat` of
`ADPCM_Header` (`0x11`), and neither tag is the code of `INVALID`, `OGG_VORBIS` or
`UNKNOWN_SUPPORTED`. -/
theorem format_code_matches_format_tag :
    (AudioDataFormat.PCM_S16.code = ({} : PCMS16_Header).fmtFormat
        ∧ AudioDataFormat.PCM_S16.code = 0x01)
      ∧ (AudioDataFormat.IMA_ADPCM.code = ({} : ADPCM_Header).fmtFormat
        ∧ AudioDataFormat.IMA_ADPCM.code = 0x11)
      ∧ (AudioDataFormat.INVALID.code ≠ ({} : PCMS16_Header).fmtFormat
        ∧ AudioDataFormat.OGG_VORBIS.code ≠ ({} : PCMS16_Header).fmtFormat
        ∧ AudioDataFormat.UNKNOWN_SUPPORTED.code ≠ ({} : PCMS16_Header).fmtFormat)
      ∧ (AudioDataFormat.INVALID.code ≠ ({} : ADPCM_Header).fmtFormat
        ∧ AudioDataFormat.OGG_VORBIS.code ≠ ({} : ADPCM_Header).fmtFormat
        ∧ AudioDataFormat.UNKNOWN_SUPPORTED.code ≠ ({} : ADPCM_Header).fmtFormat) := by
  refine ⟨⟨?_, ?_⟩, ⟨?_, ?_⟩, ⟨?_, ?_, ?_⟩, ⟨?_, ?_, ?_⟩⟩ <;> decide

end Feldarian.Base.PCMS16

namespace Feldarian.Base.UTF

theorem mapFind_insertOrAssign (fold : String → String) (key k value : String) :
    ∀ m : List (String × String),
      (mapFind fold key (mapInsertOrAssign fold k value m)).map Prod.snd
        = if fold k = fold key then some value else (mapFind fold key m).map Prod.snd
  | [] => by
    by_cases h : fold k = fold key
    · rw [if_pos h, mapInsertOrAssign, mapFind, if_pos h]; rfl
    · simp only [mapInsertOrAssign, mapFind, if_neg h]
  | (k0, v0) :: rest => by
    have ih := mapFind_insertOrAssign fold key k value rest
    by_cases h0 : fold k0 = fold k
    · by_cases h : fold k = fold key
      · rw [mapInsertOrAssign, if_pos h0, mapFind, if_pos (h0.trans h), if_pos h]; rfl
      · have h1 : ¬ fold k0 = fold key := fun e => h (h0.symm.trans e)
        rw [mapInsertOrAssign, if_pos h0, mapFind, if_neg h1, if_neg h, mapFind, if_neg h1]
    · by_cases h1 : fold k0 = fold key
      · have h : ¬ fold k = fold key := fun e => h0 (h1.trans e.symm)
        rw [mapInsertOrAssign, if_neg h0, mapFind, if_pos h1, if_neg h, mapFind, if_pos h1]
      · rw [mapInsertOrAssign, if_neg h0, mapFind, if_neg h1, ih, mapFind, if_neg h1]

theorem lastSameKey_cons (fold : String → String) (key : String) (kv : String × TomlNode)
    (rest : TomlTable) :
    lastSameKey fold key (kv :: rest)
      = (lastSameKey fold key rest).or (if fold kv.1 = fold key then some kv.2 else none) := by
  unfold lastSameKey
  rw [List.reverse_cons, List.find?_append]
  cases h : List.find? (fun kv => fold kv.1 == fold key) rest.reverse with
  | some x => simp
  | none =>
    by_cases hk : fold kv.1 = fold key
    · have hb : (fold kv.1 == fold key) = true := by simpa using hk
      simp [List.find?, hb, hk]
    · have hb : (fold kv.1 == fold key) = false := by simpa using hk
      simp [List.find?, hb, hk]

/-- What a lookup finds after the second loop of `Load`: the string of the last entry of the
table with the same key, or what was stored before when the table has no such entry. -/
theorem loadEntries_spec (fold : String → String) (key : String) :
    ∀ (t : TomlTable) (self : LocalizationInstance),
      (∀ kv ∈ t, kv.2.is_string = true) →
      ∃ s, LocalizationInstance.loadEntries fold t self = some s
        ∧ (mapFind fold key s.localizationMap).map Prod.snd
            = match lastSameKey fold key t with
              | some node => node.as_string
              | none => (mapFind fold key self.localizationMap).map Prod.snd
  | [], self => by
    intro _
    exact ⟨self, rfl, by simp [lastSameKey]⟩
  | (k, value) :: rest, self => by
    intro hall
    have hrest : ∀ kv ∈ rest, kv.2.is_string = true :=
      fun kv hkv => hall kv (List.mem_cons_of_mem _ hkv)
    have hv : value.is_string = true := hall (k, value) (List.mem_cons_self _ _)
    cases value with
    | string v =>
      obtain ⟨s, hs, hfind⟩ := loadEntries_spec fold key rest
        { localizationMap := mapInsertOrAssign fold k v self.localizationMap
          glyphTexts := self.glyphTexts ++ [k, v] } hrest
      refine ⟨s, by simpa [LocalizationInstance.loadEntries] using hs, ?_⟩
      rw [hfind, lastSameKey_cons]
      cases hl : lastSameKey fold key rest with
      | some x => simp
      | none =>
        simp only [mapFind_insertOrAssign, Option.or]
        by_cases hk : fold k = fold key
        · simp only [if_pos hk, TomlNode.as_string]
        · simp only [if_neg hk]
    | integer i => exact absurd hv (by simp [TomlNode.is_string])
    | boolean b => exact absurd hv (by simp [TomlNode.is_string])
    | other => exact absurd hv (by simp [TomlNode.is_string])

theorem localize_of_mapFind (fold : String → String) (self : LocalizationInstance)
    (key value : String)
    (h : (mapFind fold key self.localizationMap).map Prod.snd = some value) :
    self.Localize fold key = value := by
  unfold LocalizationInstance.Localize
  cases hf : mapFind fold key self.localizationMap with
  | none => rw [hf] at h; cases h
  | some kv =>
    rw [hf] at h
    obtain ⟨k, v⟩ := kv
    simpa using h

theorem lastSameKey_some (fold : String → String) (key : String) (t : TomlTable)
    (node : TomlNode) (h : lastSameKey fold key t = some node) :
    ∃ kv ∈ t, fold kv.1 = fold key ∧ kv.2 = node := by
  unfold lastSameKey at h
  cases hf : List.find? (fun kv => fold kv.1 == fold key) t.reverse with
  | none => rw [hf] at h; cases h
  | some kv =>
    rw [hf] at h
    refine ⟨kv, List.mem_reverse.1 (List.mem_of_find?_eq_some hf), ?_, by simpa using h⟩
    simpa using List.find?_some hf

theorem lastSameKey_of_mem (fold : String → String) (t : TomlTable) (kv : String × TomlNode)
    (h : kv ∈ t) : ∃ node, lastSameKey fold kv.1 t = some node := by
  unfold lastSameKey
  cases hf : List.find? (fun e => fold e.1 == fold kv.1) t.reverse with
  | some e => exact ⟨e.2, rfl⟩
  | none =>
    have := List.find?_eq_none.1 hf kv (List.mem_reverse.2 h)
    simp at this

theorem any_not_string_iff (t : TomlTable) :
    t.any (fun kv => !kv.2.is_string) = true ↔ ∃ kv ∈ t, kv.2.is_string = false := by
  simp [List.any_eq_true]

/-- C10 (amended): `LocalizationInstance::Load` never fails an assertion; it returns false
exactly when some value of the table is not a string, and then the instance is unchanged;
when it returns true, a later `Localize(key)` returns, for every key of the table, the string
of the last entry of the table, in iteration order, whose key is the same `String8CI` key,
so it returns the value the table gives for `key` whenever that entry is the only one of the
table with this `String8CI` key. -/
theorem load_all_or_nothing (fold : String → String) (self : LocalizationInstance)
    (localizationTable : TomlTable) :
    ∃ r, self.Load fold localizationTable = some r
      ∧ (r.1 = false ↔ ∃ kv ∈ localizationTable, kv.2.is_string = false)
      ∧ (r.1 = false → r.2 = self)
      ∧ (r.1 = true → ∀ kv ∈ localizationTable,
          ∃ node, lastSameKey fold kv.1 localizationTable = some node
            ∧ node.as_string = some (r.2.Localize fold kv.1))
      ∧ (r.1 = true → ∀ key value, (key, TomlNode.string value) ∈ localizationTable →
          (∀ kv ∈ localizationTable, fold kv.1 = fold key → kv = (key, TomlNode.string value)) →
            r.2.Localize fold key = value) := by
  by_cases hany : localizationTable.any (fun kv => !kv.2.is_string) = true
  · refine ⟨(false, self), ?_, ?_, ?_, ?_, ?_⟩
    · unfold LocalizationInstance.Load
      rw [if_pos hany]
    · exact ⟨fun _ => (any_not_string_iff _).1 hany, fun _ => rfl⟩
    · intro _; rfl
    · intro h; cases h
    · intro h; cases h
  · have hall : ∀ kv ∈ localizationTable, kv.2.is_string = true := by
      intro kv hkv
      cases hs : kv.2.is_string with
      | true => rfl
      | false => exact absurd ((any_not_string_iff _).2 ⟨kv, hkv, hs⟩) hany
    obtain ⟨s, hs, _⟩ := loadEntries_spec fold "" localizationTable self hall
    have hlast : ∀ kv ∈ localizationTable,
        ∃ node, lastSameKey fold kv.1 localizationTable = some node
          ∧ node.as_string = some (s.Localize fold kv.1) := by
      intro kv hkv
      obtain ⟨node, hnode⟩ := lastSameKey_of_mem fold localizationTable kv hkv
      obtain ⟨s', hs', hfind⟩ := loadEntries_spec fold kv.1 localizationTable self hall
      have hss : s' = s := Option.some.inj (hs'.symm.trans hs)
      subst hss
      rw [hnode] at hfind
      obtain ⟨e, he, -, hen⟩ := lastSameKey_some fold kv.1 localizationTable node hnode
      have hstr := hall e he
      rw [hen] at hstr
      cases node with
      | string v =>
        refine ⟨TomlNode.string v, hnode, ?_⟩
        have := localize_of_mapFind fold s' kv.1 v hfind
        rw [this]; rfl
      | integer i => exact absurd hstr (by simp [TomlNode.is_string])
      | boolean b => exact absurd hstr (by simp [TomlNode.is_string])
      | other => exact absurd hstr (by simp [TomlNode.is_string])
    refine ⟨(true, s), ?_, ?_, ?_, ?_, ?_⟩
    · unfold LocalizationInstance.Load
      rw [if_neg hany, hs]; rfl
    · constructor
      · intro h; cases h
      · rintro ⟨kv, hkv, hf⟩
        have := hall kv hkv
        rw [hf] at this
        cases this
    · intro h; cases h
    · intro _; exact hlast
    · intro _ key value hmem honly
      obtain ⟨node, hnode, hstr⟩ := hlast (key, TomlNode.string value) hmem
      obtain ⟨e, he, hfe, hen⟩ := lastSameKey_some fold key localizationTable node hnode
      have := honly e he hfe
      subst this
      simp only at hen
      subst hen
      simpa [TomlNode.as_string] using hstr.symm

/-- A table with the keys `Yes` and `yes`, loaded into an empty instance. -/
theorem load_all_or_nothing_witness :
    ∃ r, ({} : LocalizationInstance).Load asciiFold
          [("No", TomlNode.string "nein"), ("Yes", TomlNode.string "ja")] = some r
      ∧ r.2.Localize asciiFold "Yes" = "ja" := by
  obtain ⟨r, hr, hf, -, -, hown⟩ := load_all_or_nothing asciiFold {}
    [("No", TomlNode.string "nein"), ("Yes", TomlNode.string "ja")]
  have htrue : r.1 = true := by
    cases h : r.1 with
    | true => rfl
    | false =>
      obtain ⟨kv, hkv, hs⟩ := hf.1 h
      simp at hkv
      rcases hkv with rfl | rfl <;> simp [TomlNode.is_string] at hs
  refine ⟨r, hr, hown htrue "Yes" "ja" (by simp) ?_⟩
  intro kv hkv hfold
  simp at hkv
  rcases hkv with rfl | rfl
  · exact absurd hfold (by decide)
  · rfl

/-- C10 as stated fails: a table with the keys `Yes` and `yes` loads successfully, the table
gives `ja` for `Yes`, and a later `Localize("Yes")` does not return `ja` (it returns `JA`, the
value of `yes`). Were the two entries visited in the other order, `Localize("yes")` would not
return `JA`, the value the table gives for `yes`. -/
theorem load_case_collision_counterexample :
    (({} : LocalizationInstance).Load asciiFold
          [("Yes", TomlNode.string "ja"), ("yes", TomlNode.string "JA")]
        = some (true, { localizationMap := [("Yes", "JA")],
                        glyphTexts := ["Yes", "ja", "yes", "JA"] })
      ∧ tableValue "Yes" [("Yes", TomlNode.string "ja"), ("yes", TomlNode.string "JA")]
          = some (TomlNode.string "ja")
      ∧ ({ localizationMap := [("Yes", "JA")], glyphTexts := ["Yes", "ja", "yes", "JA"] } :
          LocalizationInstance).Localize asciiFold "Yes" ≠ "ja")
    ∧ (({} : LocalizationInstance).Load asciiFold
          [("yes", TomlNode.string "JA"), ("Yes", TomlNode.string "ja")]
        = some (true, { localizationMap := [("yes", "ja")],
                        glyphTexts := ["yes", "JA", "Yes", "ja"] })
      ∧ tableValue "yes" [("yes", TomlNode.string "JA"), ("Yes", TomlNode.string "ja")]
          = some (TomlNode.string "JA")
      ∧ ({ localizationMap := [("yes", "ja")], glyphTexts := ["yes", "JA", "Yes", "ja"] } :
          LocalizationInstance).Localize asciiFold "yes" ≠ "JA") := by
  refine ⟨⟨?_, ?_, ?_⟩, ?_, ?_, ?_⟩ <;> decide

theorem localizeInternal_unfold (ndebug : Bool) (fold : String → String)
    (self : LocalizationManager) (key : String) :
    self.LocalizeInternal ndebug fold key
      = if self.currentTranslation fold key ≠ "" then some (self.currentTranslation fold key)
        else if self.defaultTranslation fold key ≠ "" then
          some (self.defaultTranslation fold key)
        else (cassert ndebug (decide (self.defaultTranslation fold key ≠ ""))).bind fun _ =>
          some "" :=
  rfl

/-- C11: `LocalizationManager::Localize` returns the translation of the current language when
that is not empty, otherwise the translation of the default language when that is not empty.
For a key with no non-empty translation in either language the assertion of line 259 is
reached with its condition false: the lookup is aborted, and it yields the key only when
assertions are compiled out with `NDEBUG`. -/
theorem localize_fallback_order (ndebug : Bool) (fold : String → String)
    (self : LocalizationManager) (key : String) :
    (self.currentTranslation fold key ≠ "" →
        self.Localize ndebug fold key = some (self.currentTranslation fold key))
      ∧ (self.currentTranslation fold key = "" → self.defaultTranslation fold key ≠ "" →
        self.Localize ndebug fold key = some (self.defaultTranslation fold key))
      ∧ (self.currentTranslation fold key = "" → self.defaultTranslation fold key = "" →
        self.Localize ndebug fold key = if ndebug then some key else none) := by
  unfold LocalizationManager.Localize
  rw [localizeInternal_unfold]
  refine ⟨?_, ?_, ?_⟩
  · intro hc
    rw [if_pos hc, Option.map_some', if_neg hc]
  · intro hc hd
    rw [if_neg (not_not.2 hc), if_pos hd, Option.map_some', if_neg hd]
  · intro hc hd
    rw [if_neg (not_not.2 hc), if_neg (not_not.2 hd)]
    cases ndebug
    · have hfail : cassert false (decide (self.defaultTranslation fold key ≠ "")) = none := by
        simp [cassert, hd]
      rw [hfail]
      rfl
    · have hpass : cassert true (decide (self.defaultTranslation fold key ≠ "")) = some () := by
        simp [cassert]
      rw [hpass]
      rfl

/-- A freshly constructed manager asked for `Hello`: with assertions enabled the lookup is
aborted, with `NDEBUG` it yields the key. A manager with a German and an English table
gives the German `Oeffnen` for `Open`, the English `Close` for `close`, and is aborted at
`Quit`, which neither table has. -/
theorem localize_fallback_order_witness :
    ({} : LocalizationManager).Localize false asciiFold "Hello" = none
      ∧ ({} : LocalizationManager).Localize true asciiFold "Hello" = some "Hello"
      ∧ ({ localizationInstance := some { localizationMap := [("Open", "Oeffnen")] },
           defaultLocalizationInstance :=
             some { localizationMap := [("Open", "Open"), ("Close", "Close")] } } :
          LocalizationManager).Localize false asciiFold "Open" = some "Oeffnen"
      ∧ ({ localizationInstance := some { localizationMap := [("Open", "Oeffnen")] },
           defaultLocalizationInstance :=
             some { localizationMap := [("Open", "Open"), ("Close", "Close")] } } :
          LocalizationManager).Localize false asciiFold "close" = some "Close"
      ∧ ({ localizationInstance := some { localizationMap := [("Open", "Oeffnen")] },
           defaultLocalizationInstance :=
             some { localizationMap := [("Open", "Open"), ("Close", "Close")] } } :
          LocalizationManager).Localize false asciiFold "Quit" = none :=
  ⟨(localize_fallback_order false asciiFold {} "Hello").2.2 (by decide) (by decide),
   (localize_fallback_order true asciiFold {} "Hello").2.2 (by decide) (by decide),
   (localize_fallback_order false asciiFold _ "Open").1 (by decide),
   (localize_fallback_order false asciiFold _ "close").2.1 (by decide) (by decide),
   (localize_fallback_order false asciiFold _ "Quit").2.2 (by decide) (by decide)⟩

end Feldarian.Base.UTF
